import Mathlib

/-!
Shallow embedding of the URL-shortener backend (server.js, utils.js,
models.js) for verification of the shortcode allocation and
redirect-resolution subsystem.

Timestamps are modelled as `Int` (milliseconds since the epoch, as in the
JavaScript `Date` values the code compares with `>` and adds to with
`getTime() + minutes * 60000`).  Storage (MongoDB) is modelled as an
explicit `Store` value: a list of `ShortLink` documents and a list of
`ClickEvent` documents.  `findOne` becomes `List.find?` on exact string
equality of the `shortcode` field, `updateOne` with an increment becomes
an update of the first matching document, and insertion appends.
Randomness (`Math.random` inside `generateShortcode`) and the outcome of
each `save()` under concurrency are inputs to the embedded functions: a
candidate stream `gen : Nat -> String` and an insert-outcome oracle.
-/

namespace UrlShortener

/-- A stored ShortUrl document (models.js `ShortUrlSchema`).  The
`metadata` bag is informational only and never read by the handlers, so
it is omitted from the embedding. -/
structure ShortLink where
  shortcode : String
  originalUrl : String
  createdAt : Int
  expiryAt : Int
  validityMinutes : Int
  clicksCount : Nat
deriving Repr, DecidableEq

/-- A stored Click document (models.js `ClickSchema`).  `geo` is stored
by the redirect handler as `{ country: null }`; only the `country` field
is ever produced or read, so geo is modelled as that one optional
field. -/
structure ClickEvent where
  shortcode : String
  clickedAt : Int
  referrer : Option String
  ip : String
  userAgent : Option String
  geoCountry : Option String
deriving Repr, DecidableEq

/-- The storage state: all ShortUrl documents and all Click documents. -/
structure Store where
  links : List ShortLink
  clicks : List ClickEvent
deriving Repr, DecidableEq

/-- Point lookup `ShortUrl.findOne({ shortcode: sc })`: exact,
case-sensitive string equality on the `shortcode` field (the schema
declares no collation and no lowercasing). -/
def findOneShortUrl (store : Store) (sc : String) : Option ShortLink :=
  store.links.find? (fun l => l.shortcode == sc)

/-- Increment `clicksCount` of the first document matching `sc`
(`ShortUrl.updateOne({ shortcode: sc }, { $inc: { clicksCount: 1 } })`). -/
def incFirst : List ShortLink → String → List ShortLink
  | [], _ => []
  | l :: ls, sc =>
    if l.shortcode == sc then { l with clicksCount := l.clicksCount + 1 } :: ls
    else l :: incFirst ls sc

/-- The atomic click-count increment at the storage layer. -/
def incrementClickCount (store : Store) (sc : String) : Store :=
  { store with links := incFirst store.links sc }

/-- The error objects thrown by the handlers: `{ status, message }`. -/
structure ErrObj where
  status : Nat
  message : String
deriving Repr, DecidableEq

deriving instance DecidableEq for Except

/-- server.js `RESERVED_SHORTCODES`. -/
def RESERVED_SHORTCODES : List String :=
  ["shorturls", "api", "admin", "health", "favicon.ico"]

/-- JavaScript `s.trim()`: strip whitespace from both ends, written over
the character list so it evaluates by structural recursion. -/
def jsTrim (s : String) : String :=
  ⟨((s.data.dropWhile Char.isWhitespace).reverse.dropWhile
      Char.isWhitespace).reverse⟩

/-- ASCII lower-casing of one character.  JavaScript `toLowerCase` on
the ASCII range the reserved names are drawn from. -/
def lowerChar (c : Char) : Char :=
  if 'A' ≤ c ∧ c ≤ 'Z' then Char.ofNat (c.toNat + 32) else c

/-- JavaScript `s.toLowerCase()` on ASCII. -/
def jsToLower (s : String) : String :=
  ⟨s.data.map lowerChar⟩

/-- The reserved-name check `RESERVED_SHORTCODES.has(s.toLowerCase())`:
the only place where a shortcode is lower-cased before comparison. -/
def isReserved (s : String) : Bool :=
  RESERVED_SHORTCODES.contains (jsToLower s)

/-- Membership of the shortcode character class `[A-Za-z0-9_-]`. -/
def isShortcodeChar (c : Char) : Bool :=
  ('A' ≤ c && c ≤ 'Z') || ('a' ≤ c && c ≤ 'z') || ('0' ≤ c && c ≤ '9') ||
    c == '_' || c == '-'

/-- utils.js `normalizeShortcode`: trim, then require
`^[A-Za-z0-9_-]{3,30}$`; `none` models the JavaScript `null` reject. -/
def normalizeShortcode (code : String) : Option String :=
  let cleaned := jsTrim code
  if 3 ≤ cleaned.data.length ∧ cleaned.data.length ≤ 30 ∧
      cleaned.data.all isShortcodeChar then
    some cleaned
  else
    none

/-- Whether the first list starts with the second. -/
def startsWithList : List Char → List Char → Bool
  | _, [] => true
  | [], _ :: _ => false
  | a :: as, b :: bs => a == b && startsWithList as bs

/-- utils.js `isValidUrl` delegates to the external `validator` library
with `require_protocol` and protocols http/https; the library itself is
outside this repository, so only the protocol requirement the code
configures is modelled. -/
def isValidUrl (s : String) : Bool :=
  startsWithList s.data "http://".data || startsWithList s.data "https://".data

/-- server.js `makeUniqueShortcode(desired)` with `desired` supplied:
trim, reject reserved names (after lower-casing) with a 400, reject an
already-stored shortcode with a 409, otherwise return the trimmed
desired code. -/
def makeUniqueShortcodeDesired (store : Store) (desired : String) :
    Except ErrObj String :=
  let normalized := jsTrim desired
  if isReserved normalized then
    .error ⟨400, "shortcode not allowed"⟩
  else if (findOneShortUrl store normalized).isSome then
    .error ⟨409, "shortcode already exists"⟩
  else
    .ok normalized

/-- The error thrown when the generation loop exhausts its 8 attempts. -/
def exhaustedErr : ErrObj :=
  ⟨500, "unable to generate unique shortcode, try again"⟩

/-- The body of server.js `makeUniqueShortcode(null)`'s
`for (attempt = 0; attempt < 8; attempt++)` loop, with the remaining
iteration count as fuel.  `gen attempt` is the candidate produced by
`generateShortcode(6)` on that iteration; a reserved candidate or one
already in storage consumes the iteration (`continue`). -/
def makeUniqueShortcodeLoop (store : Store) (gen : Nat → String) :
    Nat → Nat → Except ErrObj String
  | _, 0 => .error exhaustedErr
  | attempt, fuel + 1 =>
    let candidate := gen attempt
    if isReserved candidate then
      makeUniqueShortcodeLoop store gen (attempt + 1) fuel
    else if (findOneShortUrl store candidate).isSome then
      makeUniqueShortcodeLoop store gen (attempt + 1) fuel
    else
      .ok candidate

/-- server.js `makeUniqueShortcode(null)`: up to 8 generation attempts. -/
def makeUniqueShortcodeGen (store : Store) (gen : Nat → String) :
    Except ErrObj String :=
  makeUniqueShortcodeLoop store gen 0 8

/-- A candidate is usable by the generation loop: not reserved and not
present in storage. -/
def availableB (store : Store) (c : String) : Bool :=
  !isReserved c && (findOneShortUrl store c).isNone

/-! ## Redirect resolver: `app.get('/:shortcode')` -/

/-- The request metadata captured into a Click document by the redirect
handler (`req.get('Referer') || null`, `req.ip`,
`req.get('User-Agent')`). -/
structure ClickMeta where
  referrer : Option String
  ip : String
  userAgent : Option String
deriving Repr, DecidableEq

/-- The Click document constructed by the redirect handler; `geo` is set
to `{ country: null }`. -/
def mkClick (sc : String) (now : Int) (meta : ClickMeta) : ClickEvent :=
  { shortcode := sc
    clickedAt := now
    referrer := meta.referrer
    ip := meta.ip
    userAgent := meta.userAgent
    geoCountry := none }

/-- The responses the redirect route can produce: 404, 410, a 302
redirect to a location, or the 500 produced by the handler's catch
block. -/
inductive RedirectResp where
  | notFound
  | gone
  | redirect (status : Nat) (location : String)
  | serverError
deriving Repr, DecidableEq

/-- server.js `app.get('/:shortcode')`.  The whole handler body sits in
one try block whose catch returns a 500, so a throw from `click.save()`
or from `ShortUrl.updateOne` aborts the handler with `serverError`
before the redirect line is reached.  `saveClickFails` and
`incClickFails` are the oracle for whether those two storage writes
throw; a failed write leaves storage unchanged.  Returns the response
together with the resulting storage state. -/
def redirectHandler (store : Store) (sc : String) (now : Int)
    (meta : ClickMeta) (saveClickFails incClickFails : Bool) :
    RedirectResp × Store :=
  if isReserved sc then
    (.notFound, store)
  else
    match findOneShortUrl store sc with
    | none => (.notFound, store)
    | some doc =>
      if now > doc.expiryAt then
        (.gone, store)
      else if saveClickFails then
        (.serverError, store)
      else
        let store1 : Store :=
          { store with clicks := store.clicks ++ [mkClick sc now meta] }
        if incClickFails then
          (.serverError, store1)
        else
          (.redirect 302 doc.originalUrl, incrementClickCount store1 sc)

/-- A storage write issued by the redirect handler. -/
inductive StoreOp where
  | appendClick (e : ClickEvent)
  | incClicks (sc : String)
deriving Repr, DecidableEq

/-- Effect of one storage write on the store. -/
def applyOp (s : Store) : StoreOp → Store
  | .appendClick e => { s with clicks := s.clicks ++ [e] }
  | .incClicks sc => incrementClickCount s sc

/-- Effect of a sequence of storage writes, in issue order. -/
def applyOps (s : Store) (ops : List StoreOp) : Store :=
  ops.foldl applyOp s

/-- The sequence of storage writes the redirect handler completes, in
the order the code awaits them: `click.save()` first, then the
`clicksCount` increment.  A write that fails (and the writes after it,
which the handler never reaches) does not appear. -/
def redirectWrites (store : Store) (sc : String) (now : Int)
    (meta : ClickMeta) (saveClickFails incClickFails : Bool) :
    List StoreOp :=
  if isReserved sc then []
  else
    match findOneShortUrl store sc with
    | none => []
    | some doc =>
      if now > doc.expiryAt then []
      else if saveClickFails then []
      else if incClickFails then [.appendClick (mkClick sc now meta)]
      else [.appendClick (mkClick sc now meta), .incClicks sc]

/-- The aggregate counter stored for `sc` (0 when no document exists). -/
def clicksTotalOf (store : Store) (sc : String) : Nat :=
  match findOneShortUrl store sc with
  | some doc => doc.clicksCount
  | none => 0

/-- Number of Click documents recorded for `sc`. -/
def clickEventsOf (store : Store) (sc : String) : Nat :=
  (store.clicks.filter (fun c => c.shortcode == sc)).length

/-- The counter-vs-event-log consistency relation: the aggregate never
exceeds the number of recorded events. -/
def countInvariant (store : Store) (sc : String) : Prop :=
  clicksTotalOf store sc ≤ clickEventsOf store sc

/-! ## Stats route: `app.get('/shorturls/:shortcode')` -/

/-- One entry of the `clicks` array in the stats response. -/
structure ClickDetail where
  timestamp : Int
  referrer : Option String
  ip : String
  userAgent : Option String
  geoCountry : Option String
deriving Repr, DecidableEq

/-- The stats response body. -/
structure StatsResp where
  shortcode : String
  originalUrl : String
  createdAt : Int
  expiryAt : Int
  clicksTotal : Nat
  clicks : List ClickDetail
deriving Repr, DecidableEq

/-- Insert one click into a list kept sorted by `clickedAt`
descending. -/
def insertByDesc (e : ClickEvent) : List ClickEvent → List ClickEvent
  | [] => [e]
  | x :: xs =>
    if x.clickedAt ≤ e.clickedAt then e :: x :: xs
    else x :: insertByDesc e xs

/-- `Click.find({ shortcode }).sort({ clickedAt: -1 })`: the matching
clicks ordered newest first. -/
def sortClicksDesc (l : List ClickEvent) : List ClickEvent :=
  l.foldr insertByDesc []

/-- server.js `app.get('/shorturls/:shortcode')`: look the document up
by exact shortcode, 404 when absent, otherwise return all stored fields
and the click list newest first.  No expiry check appears anywhere on
this route. -/
def statsHandler (store : Store) (sc : String) : Except ErrObj StatsResp :=
  match findOneShortUrl store sc with
  | none => .error ⟨404, "shortcode not found"⟩
  | some doc =>
    let clicks := sortClicksDesc (store.clicks.filter (fun c => c.shortcode == sc))
    .ok
      { shortcode := sc
        originalUrl := doc.originalUrl
        createdAt := doc.createdAt
        expiryAt := doc.expiryAt
        clicksTotal := doc.clicksCount
        clicks := clicks.map (fun c =>
          ⟨c.clickedAt, c.referrer, c.ip, c.userAgent, c.geoCountry⟩) }

/-! ## Creation route: `app.post('/shorturls')` -/

/-- The parsed request body of `POST /shorturls`.  `url = none` models
an absent or non-string `url` field.  `validity = some n` models a body
whose `validity` coerces (via `Number`) to the integer `n`; `none`
covers an absent, non-numeric or non-integral `validity`, all of which
fail the `Number.isInteger` test in the handler and fall through to the
same default. -/
structure CreateReq where
  url : Option String
  validity : Option Int
  shortcode : Option String
deriving Repr, DecidableEq

/-- The handler line
`Number.isInteger(Number(validity)) && Number(validity) > 0 ? Number(validity) : 30`:
a positive integral validity is kept, everything else (including a
non-positive number) becomes the default 30. -/
def computeValidMinutes (validity : Option Int) : Int :=
  match validity with
  | some n => if n > 0 then n else 30
  | none => 30

/-- Outcome of one `new ShortUrl({...}).save()` call: success, a
duplicate-key error (`e.code === 11000`), or any other error. -/
inductive InsertOutcome where
  | ok
  | dupKey
  | otherErr
deriving Repr, DecidableEq

/-- Outcome of the save-retry loop: a document was saved under
`finalCode`; the loop ended with `savedDoc` still null (500 internal
server error); or a regeneration call threw (propagates to the outer
catch). -/
inductive SaveOutcome where
  | saved (finalCode : String)
  | failed
  | thrown (e : ErrObj)
deriving Repr, DecidableEq

/-- server.js save-retry loop `for (attempt = 0; attempt < 5; attempt++)`
around `.save()`.  `oracle attempt code` is what the insert of `code`
does on that attempt.  On a duplicate-key error the handler calls
`makeUniqueShortcode(null)` again — `regen attempt` — and retries with
the resulting code, replacing whatever code it held before, including a
caller-supplied one; any other error breaks out of the loop, leaving
`savedDoc` null. -/
def saveRetry (oracle : Nat → String → InsertOutcome)
    (regen : Nat → Except ErrObj String) :
    Nat → Nat → String → SaveOutcome
  | _, 0, _ => .failed
  | attempt, fuel + 1, chosen =>
    match oracle attempt chosen with
    | .ok => .saved chosen
    | .dupKey =>
      match regen attempt with
      | .ok c => saveRetry oracle regen (attempt + 1) fuel c
      | .error e => .thrown e
    | .otherErr => .failed

/-- The response of `POST /shorturls`: an error body with an HTTP
status, or the 201 body (`shortLink`, `expiry`) together with the
document as saved. -/
inductive CreateResult where
  | errResp (status : Nat) (msg : String)
  | created (status : Nat) (shortLink : String) (expiry : Int) (saved : ShortLink)
deriving Repr, DecidableEq

/-- server.js `app.post('/shorturls')`.  `store` is the storage snapshot
the pre-insert checks run against; `gen` feeds `generateShortcode` for
the initial `makeUniqueShortcode(null)` when no shortcode is supplied;
`oracle` gives each save attempt's outcome; `regenStore i` and
`regenGen i` are the storage snapshot and candidate stream seen by the
`makeUniqueShortcode(null)` call made after a duplicate-key error on
attempt `i` (storage may have changed concurrently, which is what made
the insert collide).  Thrown `{status, message}` objects reach the outer
catch and are returned as error responses with that status. -/
def postShorturls (store : Store) (gen : Nat → String)
    (oracle : Nat → String → InsertOutcome)
    (regenStore : Nat → Store) (regenGen : Nat → Nat → String)
    (now : Int) (base : String) (req : CreateReq) : CreateResult :=
  match req.url with
  | none => .errResp 400 "url is required and must be a string"
  | some url =>
    if !isValidUrl url then
      .errResp 400 "url must include protocol (http/https) and be a valid URL"
    else
      let validMinutes := computeValidMinutes req.validity
      if validMinutes ≤ 0 then
        .errResp 400 "validity must be a positive integer (minutes)"
      else
        let chosenE : Except ErrObj String :=
          match req.shortcode with
          | some scRaw =>
            match normalizeShortcode scRaw with
            | none => .error ⟨400, "invalid shortcode - only A-Z a-z 0-9 _ - allowed, length 3..30"⟩
            | some normalized => makeUniqueShortcodeDesired store normalized
          | none => makeUniqueShortcodeGen store gen
        match chosenE with
        | .error e => .errResp e.status e.message
        | .ok chosen =>
          let expiryAt := now + validMinutes * 60000
          let regen : Nat → Except ErrObj String := fun i =>
            makeUniqueShortcodeGen (regenStore i) (regenGen i)
          match saveRetry oracle regen 0 5 chosen with
          | .saved finalCode =>
            .created 201 (base ++ "/" ++ finalCode) expiryAt
              { shortcode := finalCode
                originalUrl := url
                createdAt := now
                expiryAt := expiryAt
                validityMinutes := validMinutes
                clicksCount := 0 }
          | .failed => .errResp 500 "internal server error"
          | .thrown e => .errResp e.status e.message

/-- Modelled from the spec: §6 and §7 assign reserved-shortcode
rejections the `Forbidden` error kind, whose HTTP rendering is 403. -/
def specForbiddenStatus : Nat := 403

/-! ## Claim theorems -/

/-- C4: for every stored shortcode and every current time, the redirect
resolver classifies the link as expired (410 Gone) exactly when the
current time is strictly greater than `expiryAt`; when the current time
equals `expiryAt` (so `now ≤ expiryAt`) the link is still active and the
302 redirect to the original URL proceeds. -/
theorem expiry_strict_boundary (store : Store) (sc : String) (now : Int)
    (meta : ClickMeta) (doc : ShortLink)
    (hres : isReserved sc = false)
    (hfind : findOneShortUrl store sc = some doc) :
    (((redirectHandler store sc now meta false false).1 = .gone) ↔
      now > doc.expiryAt) ∧
    (now ≤ doc.expiryAt →
      (redirectHandler store sc now meta false false).1 =
        .redirect 302 doc.originalUrl) := by
  by_cases hexp : now > doc.expiryAt
  · simp [redirectHandler, hres, hfind, hexp]
  · simp [redirectHandler, hres, hfind, hexp]

/-- C4 witness: a link whose `expiryAt` is exactly the current time
still redirects. -/
theorem expiry_strict_boundary_witness :
    isReserved "abc123" = false ∧
    findOneShortUrl ⟨[⟨"abc123", "https://example.com", 0, 1000, 30, 0⟩], []⟩
      "abc123" = some ⟨"abc123", "https://example.com", 0, 1000, 30, 0⟩ ∧
    (redirectHandler ⟨[⟨"abc123", "https://example.com", 0, 1000, 30, 0⟩], []⟩
        "abc123" 1000 ⟨none, "1.2.3.4", some "ua"⟩ false false).1 =
      .redirect 302 "https://example.com" :=
  ⟨by decide, by decide,
    (expiry_strict_boundary
      ⟨[⟨"abc123", "https://example.com", 0, 1000, 30, 0⟩], []⟩ "abc123" 1000
      ⟨none, "1.2.3.4", some "ua"⟩ ⟨"abc123", "https://example.com", 0, 1000, 30, 0⟩
      (by decide) (by decide)).2 (by decide)⟩

/-- C8: a redirect request on a shortcode whose `expiryAt` is strictly
in the past returns 410 Gone and leaves the entire store — every stored
field, the click counter and the click log — unchanged, whatever the
click-write failure oracle says. -/
theorem expired_redirect_frame (store : Store) (sc : String) (now : Int)
    (meta : ClickMeta) (sf incf : Bool) (doc : ShortLink)
    (hres : isReserved sc = false)
    (hfind : findOneShortUrl store sc = some doc)
    (hexp : now > doc.expiryAt) :
    redirectHandler store sc now meta sf incf = (.gone, store) := by
  simp [redirectHandler, hres, hfind, hexp]

/-- C8 witness: a concrete expired link produces Gone with the store
untouched. -/
theorem expired_redirect_frame_witness :
    isReserved "abc123" = false ∧
    findOneShortUrl ⟨[⟨"abc123", "https://example.com", 0, 1000, 30, 2⟩],
        [⟨"abc123", 10, none, "9.9.9.9", none, none⟩]⟩ "abc123" =
      some ⟨"abc123", "https://example.com", 0, 1000, 30, 2⟩ ∧
    ((1001 : Int) > (1000 : Int)) ∧
    redirectHandler ⟨[⟨"abc123", "https://example.com", 0, 1000, 30, 2⟩],
        [⟨"abc123", 10, none, "9.9.9.9", none, none⟩]⟩ "abc123" 1001
      ⟨none, "1.2.3.4", some "ua"⟩ false false =
      (.gone, ⟨[⟨"abc123", "https://example.com", 0, 1000, 30, 2⟩],
        [⟨"abc123", 10, none, "9.9.9.9", none, none⟩]⟩) :=
  ⟨by decide, by decide, by decide,
    expired_redirect_frame
      ⟨[⟨"abc123", "https://example.com", 0, 1000, 30, 2⟩],
        [⟨"abc123", 10, none, "9.9.9.9", none, none⟩]⟩ "abc123" 1001
      ⟨none, "1.2.3.4", some "ua"⟩ false false
      ⟨"abc123", "https://example.com", 0, 1000, 30, 2⟩
      (by decide) (by decide) (by decide)⟩

/-- C10: the stats route performs no expiry check — it takes no clock at
all: for every stored shortcode, expired or not, it returns the full
record (shortcode, originalUrl, createdAt, expiryAt, clicksTotal, click
list newest first), and it returns 404 exactly when no document with
that shortcode exists. -/
theorem stats_ignores_expiry (store : Store) (sc : String) :
    (∀ doc, findOneShortUrl store sc = some doc →
      statsHandler store sc = .ok
        { shortcode := sc
          originalUrl := doc.originalUrl
          createdAt := doc.createdAt
          expiryAt := doc.expiryAt
          clicksTotal := doc.clicksCount
          clicks := (sortClicksDesc
              (store.clicks.filter (fun c => c.shortcode == sc))).map
            (fun c => ⟨c.clickedAt, c.referrer, c.ip, c.userAgent, c.geoCountry⟩) }) ∧
    (statsHandler store sc = .error ⟨404, "shortcode not found"⟩ ↔
      findOneShortUrl store sc = none) := by
  constructor
  · intro doc hfind
    simp [statsHandler, hfind]
  · cases hfind : findOneShortUrl store sc <;> simp [statsHandler, hfind]

/-- C10 witness: stats of a long-expired link (expiry 1000, clicks
recorded later) still returns the full record. -/
theorem stats_ignores_expiry_witness :
    findOneShortUrl ⟨[⟨"abc123", "https://example.com", 0, 1000, 30, 1⟩],
        [⟨"abc123", 10, some "https://ref.com", "9.9.9.9", some "ua", none⟩]⟩
      "abc123" = some ⟨"abc123", "https://example.com", 0, 1000, 30, 1⟩ ∧
    statsHandler ⟨[⟨"abc123", "https://example.com", 0, 1000, 30, 1⟩],
        [⟨"abc123", 10, some "https://ref.com", "9.9.9.9", some "ua", none⟩]⟩
      "abc123" = .ok
        ⟨"abc123", "https://example.com", 0, 1000, 1,
          [⟨10, some "https://ref.com", "9.9.9.9", some "ua", none⟩]⟩ :=
  ⟨by decide,
    (stats_ignores_expiry
      ⟨[⟨"abc123", "https://example.com", 0, 1000, 30, 1⟩],
        [⟨"abc123", 10, some "https://ref.com", "9.9.9.9", some "ua", none⟩]⟩
      "abc123").1 ⟨"abc123", "https://example.com", 0, 1000, 30, 1⟩ (by decide)⟩

/-- C1 counterexample: with a stored, non-expired shortcode, a failing
`click.save()` makes the handler answer 500 serverError instead of the
302 redirect to the original URL, because both click writes sit inside
the handler's try block and the catch returns 500: the click-recording
failure is surfaced, not swallowed. -/
theorem click_failure_not_swallowed_cex :
    (redirectHandler ⟨[⟨"abc123", "https://example.com", 0, 1000, 30, 0⟩], []⟩
        "abc123" 500 ⟨none, "1.2.3.4", some "ua"⟩ true false).1 =
      .serverError ∧
    (redirectHandler ⟨[⟨"abc123", "https://example.com", 0, 1000, 30, 0⟩], []⟩
        "abc123" 500 ⟨none, "1.2.3.4", some "ua"⟩ true false).1 ≠
      .redirect 302 "https://example.com" := by
  constructor <;> decide

/-- C1 amended: for a stored, non-expired shortcode, a failure of either
click-recording write (the ClickEvent insert or the counter increment)
is surfaced to the caller as a 500 internal server error, and the
redirect instruction is not returned. -/
theorem click_failure_yields_server_error (store : Store) (sc : String)
    (now : Int) (meta : ClickMeta) (doc : ShortLink) (incf : Bool)
    (hres : isReserved sc = false)
    (hfind : findOneShortUrl store sc = some doc)
    (hexp : ¬ now > doc.expiryAt) :
    (redirectHandler store sc now meta true incf).1 = .serverError ∧
    (redirectHandler store sc now meta false true).1 = .serverError := by
  simp [redirectHandler, hres, hfind, hexp]

/-- C1 amended witness: both failure modes on a concrete active link
yield serverError. -/
theorem click_failure_yields_server_error_witness :
    isReserved "abc123" = false ∧
    (redirectHandler ⟨[⟨"abc123", "https://example.com", 0, 1000, 30, 0⟩], []⟩
        "abc123" 500 ⟨none, "1.2.3.4", some "ua"⟩ true false).1 =
      .serverError ∧
    (redirectHandler ⟨[⟨"abc123", "https://example.com", 0, 1000, 30, 0⟩], []⟩
        "abc123" 500 ⟨none, "1.2.3.4", some "ua"⟩ false true).1 =
      .serverError :=
  ⟨by decide,
    (click_failure_yields_server_error
      ⟨[⟨"abc123", "https://example.com", 0, 1000, 30, 0⟩], []⟩ "abc123" 500
      ⟨none, "1.2.3.4", some "ua"⟩ ⟨"abc123", "https://example.com", 0, 1000, 30, 0⟩
      false (by decide) (by decide) (by decide)).1,
    (click_failure_yields_server_error
      ⟨[⟨"abc123", "https://example.com", 0, 1000, 30, 0⟩], []⟩ "abc123" 500
      ⟨none, "1.2.3.4", some "ua"⟩ ⟨"abc123", "https://example.com", 0, 1000, 30, 0⟩
      true (by decide) (by decide) (by decide)).2⟩

/-- C3 counterexample: allocation of the reserved name "Admin" fails
with status 400 ("shortcode not allowed"), which is not the 403 the
Forbidden error kind denotes; the rejection is indistinguishable by
status from an InvalidInput rejection. -/
theorem reserved_alloc_status_cex :
    makeUniqueShortcodeDesired ⟨[], []⟩ "Admin" =
      .error ⟨400, "shortcode not allowed"⟩ ∧
    (400 : Nat) ≠ specForbiddenStatus := by
  constructor <;> decide

/-- C3 amended: for every reserved name in any letter case, allocation
with it as the desired shortcode fails — but with a 400 "shortcode not
allowed" error rather than 403 Forbidden — and the redirect resolver
returns 404 NotFound for it with the store untouched, regardless of
whether a document with that shortcode exists in storage. -/
theorem reserved_alloc_400_and_resolver_notfound (store store2 : Store)
    (desired sc : String) (now : Int) (meta : ClickMeta) (sf incf : Bool)
    (h1 : isReserved (jsTrim desired) = true) (h2 : isReserved sc = true) :
    makeUniqueShortcodeDesired store desired =
      .error ⟨400, "shortcode not allowed"⟩ ∧
    redirectHandler store2 sc now meta sf incf = (.notFound, store2) := by
  constructor
  · simp [makeUniqueShortcodeDesired, h1]
  · simp [redirectHandler, h2]

/-- C3 amended witness: "Admin" is rejected at allocation, and
"SHORTURLS" does not resolve even though a document with exactly that
shortcode is in storage. -/
theorem reserved_alloc_400_and_resolver_notfound_witness :
    isReserved (jsTrim "Admin") = true ∧
    isReserved "SHORTURLS" = true ∧
    makeUniqueShortcodeDesired ⟨[], []⟩ "Admin" =
      .error ⟨400, "shortcode not allowed"⟩ ∧
    redirectHandler ⟨[⟨"SHORTURLS", "https://example.com", 0, 1000, 30, 0⟩], []⟩
        "SHORTURLS" 5 ⟨none, "1.2.3.4", none⟩ false false =
      (.notFound, ⟨[⟨"SHORTURLS", "https://example.com", 0, 1000, 30, 0⟩], []⟩) :=
  ⟨by decide, by decide,
    (reserved_alloc_400_and_resolver_notfound ⟨[], []⟩
      ⟨[⟨"SHORTURLS", "https://example.com", 0, 1000, 30, 0⟩], []⟩ "Admin"
      "SHORTURLS" 5 ⟨none, "1.2.3.4", none⟩ false false
      (by decide) (by decide)).1,
    (reserved_alloc_400_and_resolver_notfound ⟨[], []⟩
      ⟨[⟨"SHORTURLS", "https://example.com", 0, 1000, 30, 0⟩], []⟩ "Admin"
      "SHORTURLS" 5 ⟨none, "1.2.3.4", none⟩ false false
      (by decide) (by decide)).2⟩

/-- C9: uniqueness checking and lookup are case-sensitive exact matches:
with a link stored under `s1`, a desired shortcode `s2` that differs
from `s1` only in letter case is still allocated; with both stored, each
lookup returns its own document; and the reserved-name check is the one
comparison that lower-cases, so it cannot tell `s1` from `s2`. -/
theorem case_sensitive_lookup_alloc (s1 s2 u1 u2 : String)
    (t1 e1 t2 e2 : Int)
    (hne : s1 ≠ s2) (hlow : jsToLower s1 = jsToLower s2)
    (hres2 : isReserved s2 = false) (htrim : jsTrim s2 = s2) :
    makeUniqueShortcodeDesired ⟨[⟨s1, u1, t1, e1, 30, 0⟩], []⟩ s2 = .ok s2 ∧
    findOneShortUrl ⟨[⟨s1, u1, t1, e1, 30, 0⟩, ⟨s2, u2, t2, e2, 30, 0⟩], []⟩ s1 =
      some ⟨s1, u1, t1, e1, 30, 0⟩ ∧
    findOneShortUrl ⟨[⟨s1, u1, t1, e1, 30, 0⟩, ⟨s2, u2, t2, e2, 30, 0⟩], []⟩ s2 =
      some ⟨s2, u2, t2, e2, 30, 0⟩ ∧
    isReserved s1 = isReserved s2 := by
  have hbeq : (s1 == s2) = false := by
    simp [hne]
  refine ⟨?_, ?_, ?_, ?_⟩
  · simp [makeUniqueShortcodeDesired, htrim, hres2, findOneShortUrl,
      List.find?, hbeq]
  · simp [findOneShortUrl, List.find?]
  · simp [findOneShortUrl, List.find?, hbeq]
  · simp [isReserved, hlow]

/-- C9 witness: "Promo1" and "promo1" coexist and resolve separately. -/
theorem case_sensitive_lookup_alloc_witness :
    ("Promo1" ≠ "promo1") ∧
    (jsToLower "Promo1" = jsToLower "promo1") ∧
    makeUniqueShortcodeDesired
      ⟨[⟨"Promo1", "https://a.example", 0, 1000, 30, 0⟩], []⟩ "promo1" =
      .ok "promo1" ∧
    findOneShortUrl ⟨[⟨"Promo1", "https://a.example", 0, 1000, 30, 0⟩,
        ⟨"promo1", "https://b.example", 0, 2000, 30, 0⟩], []⟩ "Promo1" =
      some ⟨"Promo1", "https://a.example", 0, 1000, 30, 0⟩ ∧
    findOneShortUrl ⟨[⟨"Promo1", "https://a.example", 0, 1000, 30, 0⟩,
        ⟨"promo1", "https://b.example", 0, 2000, 30, 0⟩], []⟩ "promo1" =
      some ⟨"promo1", "https://b.example", 0, 2000, 30, 0⟩ :=
  ⟨by decide, by decide,
    (case_sensitive_lookup_alloc "Promo1" "promo1" "https://a.example"
      "https://b.example" 0 1000 0 2000 (by decide) (by decide) (by decide)
      (by decide)).1,
    (case_sensitive_lookup_alloc "Promo1" "promo1" "https://a.example"
      "https://b.example" 0 1000 0 2000 (by decide) (by decide) (by decide)
      (by decide)).2.1,
    (case_sensitive_lookup_alloc "Promo1" "promo1" "https://a.example"
      "https://b.example" 0 1000 0 2000 (by decide) (by decide) (by decide)
      (by decide)).2.2.1⟩

/-- The computed validity is always positive: every non-positive input
already became 30, which is why the `validMinutes <= 0` guard in the
handler can never fire. -/
lemma computeValidMinutes_pos (v : Option Int) : 0 < computeValidMinutes v := by
  cases v with
  | none => simp [computeValidMinutes]
  | some n =>
    simp only [computeValidMinutes]
    split <;> omega

/-- Unfolding of one iteration of the save-retry loop. -/
lemma saveRetry_step (oracle : Nat → String → InsertOutcome)
    (regen : Nat → Except ErrObj String) (attempt fuel : Nat) (chosen : String) :
    saveRetry oracle regen attempt (fuel + 1) chosen =
      match oracle attempt chosen with
      | .ok => .saved chosen
      | .dupKey =>
        match regen attempt with
        | .ok c => saveRetry oracle regen (attempt + 1) fuel c
        | .error e => .thrown e
      | .otherErr => .failed := rfl

/-- A duplicate-key error on the first save followed by a successful
regeneration and insert ends with the regenerated code saved. -/
lemma saveRetry_dup_then_ok (oracle : Nat → String → InsertOutcome)
    (regen : Nat → Except ErrObj String) (chosen c1 : String)
    (hdup : oracle 0 chosen = .dupKey) (hregen : regen 0 = .ok c1)
    (hok : oracle 1 c1 = .ok) :
    saveRetry oracle regen 0 5 chosen = .saved c1 := by
  have h1 : saveRetry oracle regen 0 5 chosen = saveRetry oracle regen 1 4 c1 := by
    rw [show (5 : Nat) = 4 + 1 from rfl, saveRetry_step, hdup, hregen]
  have h2 : saveRetry oracle regen 1 4 c1 = .saved c1 := by
    rw [show (4 : Nat) = 3 + 1 from rfl, saveRetry_step, hok]
  rw [h1, h2]

/-- C2 counterexample: a creation request with desired shortcode
"promo1" whose pre-check passes but whose insert hits a duplicate-key
error (a concurrent writer won the race) does not surface 409 Conflict:
the handler silently regenerates, saves the generated code "xYz789" in
place of the desired one, and answers 201 created. -/
theorem desired_dup_falls_back_cex :
    postShorturls ⟨[], []⟩ (fun _ => "aB3dE9")
      (fun i _ => if i == 0 then .dupKey else .ok)
      (fun _ => ⟨[⟨"promo1", "https://other.example", 0, 60000, 1, 0⟩], []⟩)
      (fun _ _ => "xYz789") 0 "http://sh.rt"
      ⟨some "https://example.com", some 1, some "promo1"⟩ =
    .created 201 "http://sh.rt/xYz789" 60000
      ⟨"xYz789", "https://example.com", 0, 60000, 1, 0⟩ ∧
    ("xYz789" : String) ≠ "promo1" := by
  constructor <;> decide

/-- C2 amended: with a desired shortcode, Conflict (409) is surfaced
only when the pre-insert existence check finds the shortcode taken; if
the insert itself fails with a duplicate-key error, the handler does not
surface Conflict but silently retries with a freshly generated shortcode
(up to 5 save attempts) and can return 201 with the generated code in
place of the desired one. -/
theorem desired_conflict_and_dup_retry (store : Store) (gen : Nat → String)
    (oracle : Nat → String → InsertOutcome) (regenStore : Nat → Store)
    (regenGen : Nat → Nat → String) (now : Int)
    (base url scRaw normalized : String) (validity : Option Int)
    (hurl : isValidUrl url = true)
    (hnorm : normalizeShortcode scRaw = some normalized)
    (htrim : jsTrim normalized = normalized)
    (hres : isReserved normalized = false) :
    ((findOneShortUrl store normalized).isSome = true →
      postShorturls store gen oracle regenStore regenGen now base
        ⟨some url, validity, some scRaw⟩ =
        .errResp 409 "shortcode already exists") ∧
    (∀ c1, findOneShortUrl store normalized = none →
      oracle 0 normalized = .dupKey →
      makeUniqueShortcodeGen (regenStore 0) (regenGen 0) = .ok c1 →
      oracle 1 c1 = .ok →
      postShorturls store gen oracle regenStore regenGen now base
        ⟨some url, validity, some scRaw⟩ =
        .created 201 (base ++ "/" ++ c1)
          (now + computeValidMinutes validity * 60000)
          ⟨c1, url, now, now + computeValidMinutes validity * 60000,
            computeValidMinutes validity, 0⟩) := by
  have hneg : ¬ computeValidMinutes validity ≤ 0 :=
    not_le.mpr (computeValidMinutes_pos validity)
  constructor
  · intro hsome
    simp [postShorturls, hurl, hneg, hnorm, makeUniqueShortcodeDesired,
      htrim, hres, hsome]
  · intro c1 hnone hdup hregen hok
    have hsave : saveRetry oracle
        (fun i => makeUniqueShortcodeGen (regenStore i) (regenGen i))
        0 5 normalized = .saved c1 :=
      saveRetry_dup_then_ok _ _ _ _ hdup hregen hok
    simp [postShorturls, hurl, hneg, hnorm, makeUniqueShortcodeDesired,
      htrim, hres, hnone, hsave]

/-- C2 amended witness: the concrete race — pre-check empty store,
duplicate key on the first insert of "promo1", regeneration returning
"xYz789", second insert succeeding — yields 201 with "xYz789"; and with
"promo1" already visible at pre-check the same request gets 409. -/
theorem desired_conflict_and_dup_retry_witness :
    postShorturls ⟨[⟨"promo1", "https://other.example", 0, 60000, 1, 0⟩], []⟩
      (fun _ => "aB3dE9") (fun i _ => if i == 0 then .dupKey else .ok)
      (fun _ => ⟨[⟨"promo1", "https://other.example", 0, 60000, 1, 0⟩], []⟩)
      (fun _ _ => "xYz789") 0 "http://sh.rt"
      ⟨some "https://example.com", some 1, some "promo1"⟩ =
      .errResp 409 "shortcode already exists" ∧
    postShorturls ⟨[], []⟩ (fun _ => "aB3dE9")
      (fun i _ => if i == 0 then .dupKey else .ok)
      (fun _ => ⟨[⟨"promo1", "https://other.example", 0, 60000, 1, 0⟩], []⟩)
      (fun _ _ => "xYz789") 0 "http://sh.rt"
      ⟨some "https://example.com", some 1, some "promo1"⟩ =
      .created 201 "http://sh.rt/xYz789" 60000
        ⟨"xYz789", "https://example.com", 0, 60000, 1, 0⟩ :=
  ⟨(desired_conflict_and_dup_retry
      ⟨[⟨"promo1", "https://other.example", 0, 60000, 1, 0⟩], []⟩
      (fun _ => "aB3dE9") (fun i _ => if i == 0 then .dupKey else .ok)
      (fun _ => ⟨[⟨"promo1", "https://other.example", 0, 60000, 1, 0⟩], []⟩)
      (fun _ _ => "xYz789") 0 "http://sh.rt" "https://example.com" "promo1"
      "promo1" (some 1) (by decide) (by decide) (by decide) (by decide)).1
      (by decide),
    (desired_conflict_and_dup_retry ⟨[], []⟩
      (fun _ => "aB3dE9") (fun i _ => if i == 0 then .dupKey else .ok)
      (fun _ => ⟨[⟨"promo1", "https://other.example", 0, 60000, 1, 0⟩], []⟩)
      (fun _ _ => "xYz789") 0 "http://sh.rt" "https://example.com" "promo1"
      "promo1" (some 1) (by decide) (by decide) (by decide) (by decide)).2
      "xYz789" (by decide) (by decide) (by decide) (by decide)⟩

/-- C5 (code bug): a creation request with the explicitly non-positive
validity -5 is not rejected: the ternary maps every non-positive number
to the default 30 before the `validMinutes <= 0` guard runs, so the
guard is dead code and the link is created with `validityMinutes = 30`
and a 30-minute expiry, contradicting both the guard's own error message
and the spec's InvalidInput rule. -/
theorem nonpositive_validity_accepted_with_default :
    postShorturls ⟨[], []⟩ (fun _ => "aB3dE9") (fun _ _ => .ok)
      (fun _ => ⟨[], []⟩) (fun _ _ => "xYz789") 0 "http://sh.rt"
      ⟨some "https://example.com", some (-5), none⟩ =
    .created 201 "http://sh.rt/aB3dE9" 1800000
      ⟨"aB3dE9", "https://example.com", 0, 1800000, 30, 0⟩ ∧
    computeValidMinutes (some (-5)) = 30 := by
  constructor <;> decide

/-- Unfolding of one iteration of the generation loop. -/
lemma makeUniqueShortcodeLoop_step (store : Store) (gen : Nat → String)
    (attempt fuel : Nat) :
    makeUniqueShortcodeLoop store gen attempt (fuel + 1) =
      (if isReserved (gen attempt) then
        makeUniqueShortcodeLoop store gen (attempt + 1) fuel
      else if (findOneShortUrl store (gen attempt)).isSome then
        makeUniqueShortcodeLoop store gen (attempt + 1) fuel
      else
        .ok (gen attempt)) := rfl

/-- Shifting the window of a first-hit description one step right, when
the first candidate of the window is unusable. -/
lemma firstHit_shift (gen : Nat → String) (A : String → Bool)
    (start n : Nat) (c : String) (hav : A (gen start) = false) :
    (∃ i, start + 1 ≤ i ∧ i < start + 1 + n ∧ c = gen i ∧
        A (gen i) = true ∧
        ∀ j, start + 1 ≤ j → j < i → A (gen j) = false) ↔
    (∃ i, start ≤ i ∧ i < start + (n + 1) ∧ c = gen i ∧
        A (gen i) = true ∧
        ∀ j, start ≤ j → j < i → A (gen j) = false) := by
  constructor
  · rintro ⟨i, h1, h2, h3, h4, h5⟩
    refine ⟨i, by omega, by omega, h3, h4, fun j hj1 hj2 => ?_⟩
    by_cases hj : j = start
    · rw [hj]
      exact hav
    · exact h5 j (by omega) hj2
  · rintro ⟨i, h1, h2, h3, h4, h5⟩
    have hi : i ≠ start := by
      intro hcon
      rw [hcon, hav] at h4
      exact Bool.noConfusion h4
    exact ⟨i, by omega, by omega, h3, h4, fun j hj1 hj2 => h5 j (by omega) hj2⟩

/-- The generation loop returns a code exactly when some attempt within
its window produces the first usable candidate. -/
lemma makeUniqueShortcodeLoop_ok_iff (store : Store) (gen : Nat → String) :
    ∀ (fuel start : Nat) (c : String),
      makeUniqueShortcodeLoop store gen start fuel = .ok c ↔
        ∃ i, start ≤ i ∧ i < start + fuel ∧ c = gen i ∧
          availableB store (gen i) = true ∧
          ∀ j, start ≤ j → j < i → availableB store (gen j) = false := by
  intro fuel
  induction fuel with
  | zero =>
    intro start c
    constructor
    · intro h
      exact absurd h (by simp [makeUniqueShortcodeLoop])
    · rintro ⟨i, h1, h2, -⟩
      omega
  | succ n ih =>
    intro start c
    rw [makeUniqueShortcodeLoop_step]
    by_cases hr : isReserved (gen start)
    · have hav : availableB store (gen start) = false := by
        simp [availableB, hr]
      rw [if_pos hr, ih]
      exact firstHit_shift gen (availableB store) start n c hav
    · by_cases hex : (findOneShortUrl store (gen start)).isSome
      · have hav : availableB store (gen start) = false := by
          simp only [availableB, Option.isNone_iff_eq_none]
          simp only [Option.isSome_iff_exists] at hex
          obtain ⟨l, hl⟩ := hex
          simp [hl]
        rw [if_neg hr, if_pos hex, ih]
        exact firstHit_shift gen (availableB store) start n c hav
      · have hav : availableB store (gen start) = true := by
          simp only [availableB, Bool.and_eq_true, Bool.not_eq_true']
          refine ⟨by simpa using hr, ?_⟩
          simpa [Option.isNone_iff_eq_none, Option.isSome_iff_exists,
            ← Option.ne_none_iff_exists'] using hex
        rw [if_neg hr, if_neg hex]
        constructor
        · intro h
          have hc : gen start = c := by
            injection h
          exact ⟨start, le_refl _, by omega, hc.symm, hav,
            fun j hj1 hj2 => by omega⟩
        · rintro ⟨i, h1, h2, h3, h4, h5⟩
          have hi : i = start := by
            by_contra hne
            have hfalse : availableB store (gen start) = false :=
              h5 start (le_refl _) (by omega)
            rw [hav] at hfalse
            exact Bool.noConfusion hfalse
          rw [h3, hi]

/-- The generation loop exhausts with the 500 error exactly when every
attempt in its window is reserved or already stored. -/
lemma makeUniqueShortcodeLoop_err_iff (store : Store) (gen : Nat → String) :
    ∀ (fuel start : Nat),
      makeUniqueShortcodeLoop store gen start fuel = .error exhaustedErr ↔
        ∀ i, start ≤ i → i < start + fuel →
          availableB store (gen i) = false := by
  intro fuel
  induction fuel with
  | zero =>
    intro start
    constructor
    · intro _ i h1 h2
      omega
    · intro _
      rfl
  | succ n ih =>
    intro start
    rw [makeUniqueShortcodeLoop_step]
    by_cases hr : isReserved (gen start)
    · have hav : availableB store (gen start) = false := by
        simp [availableB, hr]
      rw [if_pos hr, ih]
      constructor
      · intro h i h1 h2
        by_cases hi : i = start
        · rw [hi]
          exact hav
        · exact h i (by omega) (by omega)
      · intro h i h1 h2
        exact h i (by omega) (by omega)
    · by_cases hex : (findOneShortUrl store (gen start)).isSome
      · have hav : availableB store (gen start) = false := by
          simp only [availableB, Option.isNone_iff_eq_none]
          simp only [Option.isSome_iff_exists] at hex
          obtain ⟨l, hl⟩ := hex
          simp [hl]
        rw [if_neg hr, if_pos hex, ih]
        constructor
        · intro h i h1 h2
          by_cases hi : i = start
          · rw [hi]
            exact hav
          · exact h i (by omega) (by omega)
        · intro h i h1 h2
          exact h i (by omega) (by omega)
      · have hav : availableB store (gen start) = true := by
          simp only [availableB, Bool.and_eq_true, Bool.not_eq_true']
          refine ⟨by simpa using hr, ?_⟩
          simpa [Option.isNone_iff_eq_none, Option.isSome_iff_exists,
            ← Option.ne_none_iff_exists'] using hex
        rw [if_neg hr, if_neg hex]
        constructor
        · intro h
          exact absurd h (by simp)
        · intro h
          have hfalse : availableB store (gen start) = false :=
            h start (le_refl _) (by omega)
          rw [hav] at hfalse
          exact Bool.noConfusion hfalse

/-- C6: with no desired shortcode, the allocator consults at most the 8
candidates `gen 0 .. gen 7`: it returns `c` exactly when `c` is the
first candidate that is neither reserved nor present in storage (a
reserved candidate is skipped but still consumes an attempt), and it
fails with the 500 exhaustion error exactly when all 8 candidates are
reserved or taken. -/
theorem generation_loop_characterization (store : Store)
    (gen : Nat → String) (c : String) :
    (makeUniqueShortcodeGen store gen = .ok c ↔
      ∃ i, i < 8 ∧ c = gen i ∧ availableB store (gen i) = true ∧
        ∀ j, j < i → availableB store (gen j) = false) ∧
    (makeUniqueShortcodeGen store gen = .error exhaustedErr ↔
      ∀ i, i < 8 → availableB store (gen i) = false) := by
  constructor
  · rw [show makeUniqueShortcodeGen store gen =
        makeUniqueShortcodeLoop store gen 0 8 from rfl,
      makeUniqueShortcodeLoop_ok_iff]
    constructor
    · rintro ⟨i, -, h2, h3, h4, h5⟩
      exact ⟨i, by omega, h3, h4, fun j hj => h5 j (Nat.zero_le _) hj⟩
    · rintro ⟨i, h1, h2, h3, h4⟩
      exact ⟨i, Nat.zero_le _, by omega, h2, h3, fun j _ hj => h4 j hj⟩
  · rw [show makeUniqueShortcodeGen store gen =
        makeUniqueShortcodeLoop store gen 0 8 from rfl,
      makeUniqueShortcodeLoop_err_iff]
    constructor
    · intro h i hi
      exact h i (Nat.zero_le _) (by omega)
    · intro h i _ hi
      exact h i (by omega)

/-- C6 witness: with the first candidate already stored, the loop
returns the second candidate. -/
theorem generation_loop_characterization_witness :
    makeUniqueShortcodeGen
      ⟨[⟨"aB3dE9", "https://a.example", 0, 1000, 30, 0⟩], []⟩
      (fun i => if i == 0 then "aB3dE9" else "qQ7r2K") = .ok "qQ7r2K" := by
  apply (generation_loop_characterization
    ⟨[⟨"aB3dE9", "https://a.example", 0, 1000, 30, 0⟩], []⟩
    (fun i => if i == 0 then "aB3dE9" else "qQ7r2K") "qQ7r2K").1.mpr
  refine ⟨1, by omega, by decide, by decide, ?_⟩
  intro j hj
  have hj0 : j = 0 := by omega
  rw [hj0]
  decide

/-- Incrementing the first matching document shifts the lookup result by
exactly one click. -/
lemma find?_incFirst (ls : List ShortLink) (sc : String) :
    (incFirst ls sc).find? (fun l => l.shortcode == sc) =
      (ls.find? (fun l => l.shortcode == sc)).map
        (fun l => { l with clicksCount := l.clicksCount + 1 }) := by
  induction ls with
  | nil => simp [incFirst]
  | cons x xs ih =>
    by_cases h : x.shortcode == sc
    · simp [incFirst, h, List.find?_cons]
    · simp [incFirst, h, List.find?_cons, ih]

/-- The increment raises the stored aggregate by at most one. -/
lemma clicksTotalOf_inc_le (store : Store) (sc : String) :
    clicksTotalOf (incrementClickCount store sc) sc ≤
      clicksTotalOf store sc + 1 := by
  have hfind : findOneShortUrl (incrementClickCount store sc) sc =
      (findOneShortUrl store sc).map
        (fun l => { l with clicksCount := l.clicksCount + 1 }) := by
    simp only [findOneShortUrl, incrementClickCount]
    exact find?_incFirst store.links sc
  unfold clicksTotalOf
  rw [hfind]
  cases findOneShortUrl store sc <;> simp

/-- Appending a click for the same shortcode grows its event count by
exactly one. -/
lemma clickEventsOf_append_same (store : Store) (sc : String)
    (e : ClickEvent) (h : e.shortcode = sc) :
    clickEventsOf { store with clicks := store.clicks ++ [e] } sc =
      clickEventsOf store sc + 1 := by
  simp [clickEventsOf, List.filter_append, h]

/-- Appending any click never shrinks an event count. -/
lemma clickEventsOf_append_le (store : Store) (sc : String) (e : ClickEvent) :
    clickEventsOf store sc ≤
      clickEventsOf { store with clicks := store.clicks ++ [e] } sc := by
  simp only [clickEventsOf, List.filter_append, List.length_append]
  exact Nat.le_add_right _ _

/-- Appending a click preserves the counter-vs-log invariant: the
aggregate is untouched and the log only grows. -/
lemma countInvariant_applyOp_append (store : Store) (sc : String)
    (e : ClickEvent) (h : countInvariant store sc) :
    countInvariant { store with clicks := store.clicks ++ [e] } sc := by
  unfold countInvariant at h ⊢
  have h1 : clicksTotalOf { store with clicks := store.clicks ++ [e] } sc =
      clicksTotalOf store sc := rfl
  rw [h1]
  exact le_trans h (clickEventsOf_append_le store sc e)

/-- Incrementing after having appended a click for the same shortcode
preserves the counter-vs-log invariant. -/
lemma countInvariant_append_inc (store : Store) (sc : String) (now : Int)
    (meta : ClickMeta) (h : countInvariant store sc) :
    countInvariant
      (incrementClickCount
        { store with clicks := store.clicks ++ [mkClick sc now meta] } sc)
      sc := by
  unfold countInvariant at h ⊢
  have h1 := clicksTotalOf_inc_le
    { store with clicks := store.clicks ++ [mkClick sc now meta] } sc
  have h2 : clicksTotalOf
      { store with clicks := store.clicks ++ [mkClick sc now meta] } sc =
      clicksTotalOf store sc := rfl
  have h3 := clickEventsOf_append_same store sc (mkClick sc now meta) rfl
  have h4 : clickEventsOf
      (incrementClickCount
        { store with clicks := store.clicks ++ [mkClick sc now meta] } sc)
      sc =
      clickEventsOf
        { store with clicks := store.clicks ++ [mkClick sc now meta] } sc :=
    rfl
  rw [h4, h3]
  rw [h2] at h1
  omega

/-- C7: the redirect handler issues its storage writes with the
ClickEvent append strictly before the counter increment.  Concretely:
the handler's final store is the left-to-right application of its write
trace; after every trace position the aggregate `clicksCount` still does
not exceed the number of ClickEvent records for the shortcode (so an
interruption between the two writes under-counts, never over-counts);
and any increment in the trace is preceded by an append for the same
shortcode. -/
theorem append_before_increment_undercount (store : Store) (sc : String)
    (now : Int) (meta : ClickMeta) (sf incf : Bool)
    (hinv : countInvariant store sc) :
    ((redirectHandler store sc now meta sf incf).2 =
      applyOps store (redirectWrites store sc now meta sf incf)) ∧
    (∀ k, countInvariant
      (applyOps store ((redirectWrites store sc now meta sf incf).take k))
      sc) ∧
    (∀ i s2,
      (redirectWrites store sc now meta sf incf).get? i =
        some (.incClicks s2) →
      ∃ j e, j < i ∧
        (redirectWrites store sc now meta sf incf).get? j =
          some (.appendClick e) ∧ e.shortcode = s2) := by
  by_cases hr : isReserved sc
  · have hops : redirectWrites store sc now meta sf incf = [] := by
      simp [redirectWrites, hr]
    rw [hops]
    refine ⟨by simp [redirectHandler, hr, applyOps], ?_, ?_⟩
    · intro k
      simpa [applyOps] using hinv
    · intro i s2 h
      simp at h
  · cases hf : findOneShortUrl store sc with
    | none =>
      have hops : redirectWrites store sc now meta sf incf = [] := by
        simp [redirectWrites, hr, hf]
      rw [hops]
      refine ⟨by simp [redirectHandler, hr, hf, applyOps], ?_, ?_⟩
      · intro k
        simpa [applyOps] using hinv
      · intro i s2 h
        simp at h
    | some doc =>
      by_cases he : now > doc.expiryAt
      · have hops : redirectWrites store sc now meta sf incf = [] := by
          simp [redirectWrites, hr, hf, he]
        rw [hops]
        refine ⟨by simp [redirectHandler, hr, hf, he, applyOps], ?_, ?_⟩
        · intro k
          simpa [applyOps] using hinv
        · intro i s2 h
          simp at h
      · cases sf with
        | true =>
          have hops : redirectWrites store sc now meta true incf = [] := by
            simp [redirectWrites, hr, hf, he]
          rw [hops]
          refine ⟨by simp [redirectHandler, hr, hf, he, applyOps], ?_, ?_⟩
          · intro k
            simpa [applyOps] using hinv
          · intro i s2 h
            simp at h
        | false =>
          cases incf with
          | true =>
            have hops : redirectWrites store sc now meta false true =
                [.appendClick (mkClick sc now meta)] := by
              simp [redirectWrites, hr, hf, he]
            rw [hops]
            refine ⟨?_, ?_, ?_⟩
            · simp only [applyOps, List.foldl_cons, List.foldl_nil, applyOp]
              simp [redirectHandler, hr, hf, he]
            · intro k
              match k with
              | 0 => simpa [applyOps] using hinv
              | n + 1 =>
                simp only [List.take_succ_cons, List.take_nil, applyOps,
                  List.foldl_cons, List.foldl_nil, applyOp]
                exact countInvariant_applyOp_append store sc _ hinv
            · intro i s2 h
              match i with
              | 0 => simp at h
              | n + 1 => simp at h
          | false =>
            have hops : redirectWrites store sc now meta false false =
                [.appendClick (mkClick sc now meta), .incClicks sc] := by
              simp [redirectWrites, hr, hf, he]
            rw [hops]
            refine ⟨?_, ?_, ?_⟩
            · simp only [applyOps, List.foldl_cons, List.foldl_nil, applyOp]
              simp [redirectHandler, hr, hf, he]
            · intro k
              match k with
              | 0 => simpa [applyOps] using hinv
              | 1 =>
                simp only [List.take_succ_cons, List.take_zero, applyOps,
                  List.foldl_cons, List.foldl_nil, applyOp]
                exact countInvariant_applyOp_append store sc _ hinv
              | n + 2 =>
                simp only [List.take_succ_cons, List.take_nil, applyOps,
                  List.foldl_cons, List.foldl_nil, applyOp]
                exact countInvariant_append_inc store sc now meta hinv
            · intro i s2 h
              match i with
              | 0 => simp at h
              | 1 =>
                simp only [List.get?_cons_succ, List.get?_cons_zero,
                  Option.some.injEq] at h
                refine ⟨0, mkClick sc now meta, by omega, by simp, ?_⟩
                have hs2 : sc = s2 := by
                  cases h
                  rfl
                rw [← hs2]
                rfl
              | n + 2 => simp at h

/-- C7 witness: on a concrete active link the handler's final store is
the application of its write trace, whose invariant preservation and
ordering the theorem guarantees. -/
theorem append_before_increment_undercount_witness :
    countInvariant ⟨[⟨"abc123", "https://example.com", 0, 1000, 30, 0⟩], []⟩
      "abc123" ∧
    (redirectHandler ⟨[⟨"abc123", "https://example.com", 0, 1000, 30, 0⟩], []⟩
        "abc123" 500 ⟨none, "1.2.3.4", some "ua"⟩ false false).2 =
      applyOps ⟨[⟨"abc123", "https://example.com", 0, 1000, 30, 0⟩], []⟩
        (redirectWrites
          ⟨[⟨"abc123", "https://example.com", 0, 1000, 30, 0⟩], []⟩
          "abc123" 500 ⟨none, "1.2.3.4", some "ua"⟩ false false) :=
  ⟨by unfold countInvariant; decide,
    (append_before_increment_undercount
      ⟨[⟨"abc123", "https://example.com", 0, 1000, 30, 0⟩], []⟩ "abc123" 500
      ⟨none, "1.2.3.4", some "ua"⟩ false false
      (by unfold countInvariant; decide)).1⟩

end UrlShortener
